import Mathlib

set_option maxRecDepth 8192

/-!
Verification of the murmgenesis dual-core frame/audio pipeline.

This file gives a shallow embedding of the per-frame scheduling loop
(`emulation_loop` in src/main.c, built with ENABLE_CONSTANT_FRAMESKIP = 1
and ENABLE_ADAPTIVE_FRAMESKIP = 0), the audio mixing/submission stage
(`audio_submit` in drivers/audio.c), the I2S commit path
(`i2s_dma_write_count`), and the two DMA completion interrupt handlers
(`audio_dma_irq_handler` in drivers/audio.c and `audio_rt_dma_irq_handler`
in drivers/audio_realtime.c).  Machine integers are modelled as `Int` and
`Nat`; the `int16_t` store that appears in the silence-fade path is
modelled by an explicit wrap to the signed 16-bit range; C arithmetic
right shift on a negative value is floor division, which is `Int`'s `/`
(Euclidean division) for a positive divisor.
-/

namespace Murmgenesis

/-! ## Constants (src/main.c, drivers/audio.h, drivers/audio.c) -/

/-- FRAMESKIP_MAX_CONSECUTIVE from src/main.c line 141. -/
def FRAMESKIP_MAX_CONSECUTIVE : Nat := 4

/-- TARGET_SAMPLES_PER_FRAME from src/main.c line 894 (= TARGET_SAMPLES_NTSC
in drivers/audio.c line 379). -/
def TARGET_SAMPLES_PER_FRAME : Nat := 888

/-- AUDIO_BUFFER_SAMPLES from drivers/audio.h. -/
def AUDIO_BUFFER_SAMPLES : Nat := 1120

/-- Modelled from the spec: AUDIO_FREQ_DIVISOR lives in gwenesis_bus.h, which
is not part of the sources here; the in-repo comment in
drivers/audio_realtime.c line 81 documents its value as 1009. -/
def AUDIO_FREQ_DIVISOR : Nat := 1009

/-- AUDIO_TARGET_CLOCK from src/main.c line 895: the fixed per-frame sound
flush target, TARGET_SAMPLES_PER_FRAME * AUDIO_FREQ_DIVISOR. -/
def AUDIO_TARGET_CLOCK : Nat := TARGET_SAMPLES_PER_FRAME * AUDIO_FREQ_DIVISOR

/-- Modelled from the spec: LINES_PER_FRAME_NTSC is defined in gwenesis_bus.h
(not in the sources); the spec gives ~262 total NTSC lines. -/
def LINES_PER_FRAME_NTSC : Nat := 262

/-- Modelled from the spec: LINES_PER_FRAME_PAL is defined in gwenesis_bus.h
(not in the sources); the spec gives ~312 total PAL lines. -/
def LINES_PER_FRAME_PAL : Nat := 312

/-! ## Frameskip pattern table (src/main.c lines 106-123) -/

/-- frameskip_patterns from src/main.c lines 106-112: for each level a pair
(pattern length, pattern bit mask); bit i of the mask (LSB = frame 0 of the
period) says whether to render that frame. -/
def frameskip_patterns : Fin 5 → Nat × Nat
  | 0 => (1, 0x01)
  | 1 => (6, 0x1F)
  | 2 => (6, 0x15)
  | 3 => (6, 0x09)
  | 4 => (6, 0x05)

/-- set_frameskip_level from src/main.c lines 119-123: clamp an out-of-range
level to 3 and look up the pattern length and mask. -/
def set_frameskip_level (level : Nat) : Nat × Nat :=
  if h : level > 4 then frameskip_patterns 3
  else frameskip_patterns ⟨level, by omega⟩

/-! ## Per-frame scheduler state and step (emulation_loop, src/main.c) -/

/-- The externally mutated video-timing inputs the loop samples once at the
top of every frame: REG1_PAL and REG12_MODE_H40 (src/main.c lines 731-738). -/
structure FrameInput where
  isPal : Bool
  h40 : Bool
deriving DecidableEq

/-- screen_width computed at the top of the frame (src/main.c line 736). -/
def screenWidth (inp : FrameInput) : Nat := if inp.h40 then 320 else 256

/-- screen_height computed at the top of the frame (src/main.c line 737). -/
def screenHeight (inp : FrameInput) : Nat := if inp.isPal then 240 else 224

/-- lines_per_frame computed at the top of the frame (src/main.c line 738). -/
def linesPerFrame (inp : FrameInput) : Nat :=
  if inp.isPal then LINES_PER_FRAME_PAL else LINES_PER_FRAME_NTSC

/-- The loop-carried frameskip state of emulation_loop: frame_num,
consecutive_skipped_frames and the previous frame's screen dimensions
(src/main.c lines 595-610). -/
structure FsState where
  frameNum : Nat
  csf : Nat
  lastW : Nat
  lastH : Nat
deriving DecidableEq

/-- Initial loop state (src/main.c lines 595-610): last_screen_width and
last_screen_height start at 0, frame_num and consecutive_skipped_frames at
0. -/
def fsInit : FsState := ⟨0, 0, 0, 0⟩

/-- force_render (src/main.c lines 741-749): true exactly when the sampled
screen dimensions differ from the previous frame's. -/
def forceRenderFlag (s : FsState) (inp : FrameInput) : Bool :=
  decide (screenWidth inp ≠ s.lastW) || decide (screenHeight inp ≠ s.lastH)

/-- The deterministic skip pattern decision (src/main.c lines 754-759):
bit (frame_num mod len) of the mask, with a guard for len = 0. -/
def patternRender (len mask frameNum : Nat) : Bool :=
  let patIdx := if len ≠ 0 then frameNum % len else 0
  decide ((mask >>> patIdx) &&& 1 ≠ 0)

/-- The final render decision of one frame (src/main.c lines 751-792):
start from the policy's output (the deterministic pattern in this build,
the adaptive controller in the other), then force rendering when the
consecutive-skip count has reached FRAMESKIP_MAX_CONSECUTIVE, and force
rendering on a dimension change.  `policy` is the policy's output for this
frame, kept abstract so the safety overrides are proved for any policy. -/
def renderThisFrame (policy : Bool) (s : FsState) (inp : FrameInput) : Bool :=
  let r1 := policy
  let r2 := if s.csf ≥ FRAMESKIP_MAX_CONSECUTIVE then true else r1
  if forceRenderFlag s inp then true else r2

/-- What one frame of the loop does besides updating the skip state:
how many scanlines the renderer is asked to draw (PHASE 2, src/main.c
lines 905-932, zero when the frame is skipped), the fixed targets both
sound-chip producers are run to after the scanline loop (src/main.c lines
896-898), how many scanlines of emulation were run (PHASE 1), and whether
frame_ready was signalled to Core 1 (PHASE 3, src/main.c line 1031, which
is unconditional). -/
structure FrameActions where
  rendered : Bool
  renderedLines : Nat
  snFlushTarget : Nat
  ymFlushTarget : Nat
  emulatedLines : Nat
  frameReadySignaled : Bool
deriving DecidableEq

/-- One iteration of the emulation loop (src/main.c lines 729-1034),
restricted to the frameskip state and the per-frame actions.  `policy` is
the skip policy's raw output for this frame. -/
def frameStep (policy : Bool) (s : FsState) (inp : FrameInput) :
    FsState × FrameActions :=
  let render := renderThisFrame policy s inp
  (⟨s.frameNum + 1,
    if render then 0 else s.csf + 1,
    screenWidth inp, screenHeight inp⟩,
   ⟨render,
    if render then screenHeight inp else 0,
    AUDIO_TARGET_CLOCK, AUDIO_TARGET_CLOCK,
    linesPerFrame inp,
    true⟩)

/-- The scheduler state before frame n, for a policy stream and an input
stream. -/
def runFs (pol : Nat → Bool) (inps : Nat → FrameInput) : Nat → FsState
  | 0 => fsInit
  | n + 1 => (frameStep (pol n) (runFs pol inps n) (inps n)).1

/-- The actions frame n performs. -/
def actionsAt (pol : Nat → Bool) (inps : Nat → FrameInput) (n : Nat) :
    FrameActions :=
  (frameStep (pol n) (runFs pol inps n) (inps n)).2

/-- The render decision of frame n. -/
def renderAt (pol : Nat → Bool) (inps : Nat → FrameInput) (n : Nat) : Bool :=
  (actionsAt pol inps n).rendered

/-- The runtime frameskip policy at level 3 (HIGH): the deterministic
pattern decision computed from the table entry installed by
set_frameskip_level 3 (src/main.c lines 754-758). -/
def hiPol (n : Nat) : Bool :=
  patternRender (set_frameskip_level 3).1 (set_frameskip_level 3).2 n

/-- A constant NTSC / H40 input stream: no dimension change ever arrives. -/
def constNtsc : Nat → FrameInput := fun _ => ⟨false, true⟩

/-- The render pattern of level 3 as a residue test: frame n renders
exactly when n mod 6 is 0 or 3. -/
def renderBit (n : Nat) : Bool := decide (n % 6 = 0 ∨ n % 6 = 3)

/-- Closed form for the scheduler state along the level-3 run on a constant
NTSC stream. -/
def hiState (n : Nat) : FsState :=
  if n = 0 then fsInit else ⟨n, (n - 1) % 3, 320, 224⟩

/-! ## Audio mixing and submission state (drivers/audio.c) -/

/-- TARGET_SAMPLES_NTSC from drivers/audio.c line 379. -/
def TARGET_SAMPLES_NTSC : Nat := 888

/-- STARTUP_FADE_FRAMES from drivers/audio.c line 303. -/
def STARTUP_FADE_FRAMES : Nat := 120

/-- Wrap an integer into the signed 16-bit range, as storing into an
int16_t does on this target. -/
def toInt16 (v : Int) : Int := (v + 32768) % 65536 - 32768

/-- clamp_s16 from drivers/audio.c lines 312-316 (also the inline clamp in
audio_submit lines 510-511). -/
def clamp_s16 (v : Int) : Int :=
  if v > 32767 then 32767 else if v < -32768 then -32768 else v

/-- One step of the silence fade (drivers/audio.c line 487):
sample = (lpf_state * 250) >> 8 stored into an int16_t; the arithmetic
right shift of an int32 is floor division by 256, which is Int division
for this positive divisor. -/
def lpfStep (s : Int) : Int := toInt16 ((s * 250) / 256)

/-- The low-pass filter state after k silence-fade steps. -/
def lpfIter : Nat → Int → Int
  | 0, s => s
  | k + 1, s => lpfStep (lpfIter k s)

/-- The validated DMA transfer count (i2s_get_default_config line 84 gives
888, validated against the static buffer size in i2s_init lines 136-138). -/
def dma_transfer_count : Nat :=
  let c := 888
  let c := if c = 0 then 1 else c
  if c > AUDIO_BUFFER_SAMPLES then AUDIO_BUFFER_SAMPLES else c

/-- The clamping i2s_dma_write_count applies to its sample_count argument
(drivers/audio.c lines 216-217). -/
def i2sClampCount (c : Nat) : Nat :=
  let c1 := if c > dma_transfer_count then dma_transfer_count else c
  if c1 = 0 then 1 else c1

/-- The state of the high-level audio API on Core 1 (drivers/audio.c lines
297-307 and the externally shared last_frame_sample from src/main.c line
312). -/
structure AudioState where
  initialized : Bool
  enabled : Bool
  masterVolume : Int
  startupCounter : Nat
  lpfState : Int
  lastFrameSample : Int
deriving DecidableEq

/-- The shared data audio_submit snapshots at the top of a call
(drivers/audio.c lines 469-472): the two read-buffer pointers (none models
a NULL pointer) and the two saved sample counts. -/
structure SubmitInput where
  ymBuf : Option (Nat → Int)
  snBuf : Option (Nat → Int)
  ymSamples : Int
  snSamples : Int

/-- The sanity clamp on a reported per-chip sample count (drivers/audio.c
lines 478-479): negative or larger than AUDIO_BUFFER_SAMPLES becomes 0. -/
def clampCount (c : Int) : Int :=
  if c < 0 ∨ c > (AUDIO_BUFFER_SAMPLES : Int) then 0 else c

/-- available (drivers/audio.c lines 481-482): the max of the two clamped
counts, further clamped to TARGET_SAMPLES_NTSC. -/
def availableOf (inp : SubmitInput) : Int :=
  min (max (clampCount inp.ymSamples) (clampCount inp.snSamples))
    (TARGET_SAMPLES_NTSC : Int)

/-- The condition selecting the silence-fade path (drivers/audio.c line
484): audio disabled, nothing available, or either buffer pointer NULL. -/
def silencePathB (st : AudioState) (inp : SubmitInput) : Bool :=
  !st.enabled || decide (availableOf inp = 0) || inp.ymBuf.isNone ||
    inp.snBuf.isNone

/-- One mixed output sample (drivers/audio.c lines 499-513): sum the two
chip samples, each gated by its index being below that chip's clamped
count, scale by master_volume with an arithmetic shift by 7 (floor division
by 128), and clamp to the signed 16-bit range. -/
def mixSample (vol ymS snS : Int) (ymb snb : Nat → Int) (i : Nat) : Int :=
  let m : Int :=
    (if (i : Int) < ymS then ymb i else 0) +
      (if (i : Int) < snS then snb i else 0)
  clamp_s16 ((m * vol) / 128)

/-- The mono samples the mixing loop produces for one frame. -/
def mixMono (vol : Int) (inp : SubmitInput) : List Int :=
  (List.range (availableOf inp).toNat).map
    (mixSample vol (clampCount inp.ymSamples) (clampCount inp.snSamples)
      (inp.ymBuf.getD (fun _ => 0)) (inp.snBuf.getD (fun _ => 0)))

/-- The mixing loop's output padded to the fixed target length with the
last computed sample value (drivers/audio.c lines 521-524). -/
def pureMix (vol : Int) (inp : SubmitInput) : List Int :=
  mixMono vol inp ++
    List.replicate (TARGET_SAMPLES_NTSC - (availableOf inp).toNat)
      ((mixMono vol inp).getLastD 0)

/-- The silence-fade path's mono samples (drivers/audio.c lines 486-491):
TARGET_SAMPLES_NTSC successive decays of the filter state. -/
def fadeSamples (s : Int) : List Int :=
  (List.range TARGET_SAMPLES_NTSC).map (fun k => lpfIter (k + 1) s)

/-- One call to i2s_dma_write_count, as audio_submit observes it: the
stereo sample data and the sample count passed in. -/
structure Commit where
  samples : List (Int × Int)
  count : Nat
deriving DecidableEq

/-- audio_submit from drivers/audio.c lines 462-547: snapshot the shared
counts and pointers, clamp them, and either emit the silence fade (audio
disabled / nothing available / NULL pointer) or mix, pad, apply the
startup mute, record the last sample, and commit the fixed target length.
The returned option is the single i2s_dma_write_count call the function
makes (none only if audio is not initialized, in which case it returns
without committing). -/
def audio_submit (st : AudioState) (inp : SubmitInput) :
    AudioState × Option Commit :=
  if st.initialized = false then (st, none)
  else if silencePathB st inp then
    ({ st with lpfState := lpfIter TARGET_SAMPLES_NTSC st.lpfState },
     some ⟨(fadeSamples st.lpfState).map (fun v => (v, v)),
       TARGET_SAMPLES_NTSC⟩)
  else
    let lastS := (mixMono st.masterVolume inp).getLastD 0
    let muted := st.startupCounter < STARTUP_FADE_FRAMES
    let outBuf :=
      if muted then List.replicate TARGET_SAMPLES_NTSC (0 : Int)
      else pureMix st.masterVolume inp
    ({ st with
        startupCounter :=
          if muted then st.startupCounter + 1 else st.startupCounter,
        lastFrameSample := lastS },
     some ⟨outBuf.map (fun v => (v, v)), TARGET_SAMPLES_NTSC⟩)

/-- The audio-core state before the n-th audio_submit call of a run
(sound_core's loop on Core 1 calls audio_submit exactly once per
frame_ready handshake, src/main.c lines 571-587). -/
def audioRun (st0 : AudioState) (inps : Nat → SubmitInput) : Nat → AudioState
  | 0 => st0
  | n + 1 => (audio_submit (audioRun st0 inps n) (inps n)).1

/-- The commit the n-th frame's audio_submit call makes. -/
def commitAt (st0 : AudioState) (inps : Nat → SubmitInput) (n : Nat) :
    Option Commit :=
  (audio_submit (audioRun st0 inps n) (inps n)).2

/-- How many of the first n calls took the mixing path. -/
def mixCount (st0 : AudioState) (inps : Nat → SubmitInput) : Nat → Nat
  | 0 => 0
  | n + 1 =>
    mixCount st0 inps n +
      (if silencePathB (audioRun st0 inps n) (inps n) then 0 else 1)

/-- The property the spec asks of a crossfade (stated from the spec's
words, for comparison with the code): the first K samples of the frame's
buffer are the linear interpolation from the previous frame's last output
sample toward the new frame's level. -/
def specLinearRamp (prev target : Int) (K : Nat) (buf : List Int) : Prop :=
  ∀ i < K, buf.getD i 0 =
    prev + ((target - prev) * ((i : Int) + 1)) / ((K : Int) + 1)

instance (prev target : Int) (K : Nat) (buf : List Int) :
    Decidable (specLinearRamp prev target K buf) := by
  unfold specLinearRamp
  infer_instance

/-- A frame's worth of chip input holding a constant +20000 on the YM
buffer and nothing on the SN buffer. -/
def inpPos : SubmitInput := ⟨some (fun _ => 20000), some (fun _ => 0), 888, 0⟩

/-- A frame's worth of chip input holding a constant -20000 on the YM
buffer and nothing on the SN buffer. -/
def inpNeg : SubmitInput := ⟨some (fun _ => -20000), some (fun _ => 0), 888, 0⟩

/-- An audio state past the startup mute with full master volume. -/
def stCross0 : AudioState := ⟨true, true, 128, 120, 0, 0⟩

/-- The state after submitting the +20000 frame: its last_frame_sample is
20000. -/
def stCross1 : AudioState := (audio_submit stCross0 inpPos).1

/-- The commit of the following -20000 frame — the frame the crossfade
claim is about. -/
def crossCommit : Option Commit := (audio_submit stCross1 inpNeg).2

/-! ## DMA completion interrupt handlers (C9) -/

/-- RING_BUFFER_COUNT from drivers/audio_realtime.c line 89. -/
def RING_BUFFER_COUNT : Nat := 4

/-- RING_BUFFER_SAMPLES (= AUDIO_RING_SAMPLES_PER_BUFFER from
drivers/audio_realtime.h line 53), the per-buffer DMA transfer count of
the realtime driver. -/
def RING_BUFFER_SAMPLES : Nat := 888

/-- The state audio_rt_dma_irq_handler works on
(drivers/audio_realtime.c lines 96-102, 143, 220-267): the ring read
index and buffer count, the stats counters, the ring buffer contents
(buffer index → sample index → value), and the parameters the completed
channel is re-armed with. -/
structure RtRingState where
  ringCount : Nat
  ringReadIdx : Nat
  underruns : Nat
  irqCount : Nat
  bufs : Nat → Nat → Int
  armedIdx : Nat
  armedCount : Nat

/-- One channel-completion branch of audio_rt_dma_irq_handler
(drivers/audio_realtime.c lines 224-245; the channel-B branch at lines
248-266 is identical): advance the ring read index if a buffer is
available, otherwise count an underrun; if the ring is now empty fill the
next slot with silence; always re-arm the channel on that slot with the
full transfer count and bump the irq counter. -/
def audio_rt_dma_irq_channel (st : RtRingState) : RtRingState :=
  let advanced := st.ringCount > 0
  let cnt := if advanced then st.ringCount - 1 else st.ringCount
  let idx :=
    if advanced then (st.ringReadIdx + 1) % RING_BUFFER_COUNT
    else st.ringReadIdx
  let und := if advanced then st.underruns else st.underruns + 1
  let bufs :=
    if cnt = 0 then Function.update st.bufs idx (fun _ => 0) else st.bufs
  ⟨cnt, idx, und, st.irqCount + 1, bufs, idx, RING_BUFFER_SAMPLES⟩

/-- The state audio_dma_irq_handler of the chained double-buffer driver
works on (drivers/audio.c lines 50-57, 439-460): the free-buffer bitmask,
the two DMA buffer contents, and the parameters channel A is re-armed
with. -/
structure ChainedDmaState where
  freeMask : Nat
  bufs : Nat → Nat → Int
  armedIdxA : Nat
  armedCountA : Nat

/-- The channel-A completion branch of audio_dma_irq_handler
(drivers/audio.c lines 447-452): re-arm channel A on dma_buffers[0] with
the full transfer count and mark buffer 0 free.  The buffer contents are
not touched and nothing is counted. -/
def audio_dma_irq_channelA (st : ChainedDmaState) : ChainedDmaState :=
  ⟨st.freeMask ||| 1, st.bufs, 0, dma_transfer_count⟩

/-- A chained-driver state at the moment a completion interrupt fires with
no refilled buffer available: both buffers are marked free (the CPU never
recommitted) and the just-played buffer 0 still holds stale nonzero
samples. -/
def staleChained : ChainedDmaState := ⟨3, fun _ _ => 7, 1, 0⟩

/-! ## Basic frameskip lemmas -/

theorem renderAt_eq (pol : Nat → Bool) (inps : Nat → FrameInput) (n : Nat) :
    renderAt pol inps n = renderThisFrame (pol n) (runFs pol inps n) (inps n) := rfl

theorem csf_succ (pol : Nat → Bool) (inps : Nat → FrameInput) (n : Nat) :
    (runFs pol inps (n + 1)).csf =
      if renderAt pol inps n then 0 else (runFs pol inps n).csf + 1 := rfl

theorem render_of_csf_ge (policy : Bool) (s : FsState) (inp : FrameInput)
    (h : s.csf ≥ FRAMESKIP_MAX_CONSECUTIVE) :
    renderThisFrame policy s inp = true := by
  unfold renderThisFrame
  simp only [h, if_pos, ge_iff_le]
  split <;> simp [h]

theorem csf_le_max (pol : Nat → Bool) (inps : Nat → FrameInput) (n : Nat) :
    (runFs pol inps n).csf ≤ FRAMESKIP_MAX_CONSECUTIVE := by
  induction n with
  | zero => simp [runFs, fsInit]
  | succ n ih =>
    rw [csf_succ]
    by_cases hr : renderAt pol inps n = true
    · simp [hr]
    · simp only [Bool.not_eq_true] at hr
      simp only [hr, Bool.false_eq_true, if_false]
      by_cases hc : (runFs pol inps n).csf ≥ FRAMESKIP_MAX_CONSECUTIVE
      · have hren : renderAt pol inps n = true := by
          rw [renderAt_eq]
          exact render_of_csf_ge _ _ _ hc
        rw [hr] at hren
        exact absurd hren (by simp)
      · omega

/-- C1: for every run of the emulation loop and every skip policy, the
render decision is forced to true whenever the consecutive-skip count has
reached FRAMESKIP_MAX_CONSECUTIVE (= 4), and consequently every window of
FRAMESKIP_MAX_CONSECUTIVE + 1 (= 5) consecutive frames contains at least
one rendered frame. -/
theorem bounded_skip_streak (pol : Nat → Bool) (inps : Nat → FrameInput)
    (n : Nat) :
    ((runFs pol inps n).csf ≥ FRAMESKIP_MAX_CONSECUTIVE →
      renderAt pol inps n = true) ∧
    ∃ k, k ≤ FRAMESKIP_MAX_CONSECUTIVE ∧ renderAt pol inps (n + k) = true := by
  constructor
  · intro h
    rw [renderAt_eq]
    exact render_of_csf_ge _ _ _ h
  · by_contra hnone
    push_neg at hnone
    have hall : ∀ k, k ≤ FRAMESKIP_MAX_CONSECUTIVE →
        renderAt pol inps (n + k) = false := by
      intro k hk
      have := hnone k hk
      simpa using this
    have hstep : ∀ k, k ≤ FRAMESKIP_MAX_CONSECUTIVE →
        (runFs pol inps (n + k)).csf ≥ k := by
      intro k
      induction k with
      | zero => intro _; omega
      | succ k ih =>
        intro hk
        have h1 : (runFs pol inps (n + k + 1)).csf =
            (runFs pol inps (n + k)).csf + 1 := by
          rw [csf_succ, hall k (by omega)]
          simp
        have h2 := ih (by omega)
        have : n + (k + 1) = n + k + 1 := by omega
        rw [this, h1]
        omega
    have h4 := hstep FRAMESKIP_MAX_CONSECUTIVE (le_refl _)
    have hforced : renderAt pol inps (n + FRAMESKIP_MAX_CONSECUTIVE) = true := by
      rw [renderAt_eq]
      exact render_of_csf_ge _ _ _ h4
    have := hall FRAMESKIP_MAX_CONSECUTIVE (le_refl _)
    rw [hforced] at this
    exact Bool.true_eq_false.mp this

/-- Witness for C1: the bounded-skip-streak theorem applied to the
all-skip policy on a constant NTSC input stream at frame 7. -/
theorem bounded_skip_streak_witness :
    ((runFs (fun _ => false) (fun _ => ⟨false, true⟩) 7).csf ≥
        FRAMESKIP_MAX_CONSECUTIVE →
      renderAt (fun _ => false) (fun _ => ⟨false, true⟩) 7 = true) ∧
    ∃ k, k ≤ FRAMESKIP_MAX_CONSECUTIVE ∧
      renderAt (fun _ => false) (fun _ => ⟨false, true⟩) (7 + k) = true :=
  bounded_skip_streak (fun _ => false) (fun _ => ⟨false, true⟩) 7

/-- C6: if the screen width or height sampled at the top of a frame differs
from the previous frame's, that frame is rendered unconditionally — for
every skip-policy output and every consecutive-skip count. -/
theorem dimension_change_forces_render (policy : Bool) (s : FsState)
    (inp : FrameInput)
    (h : screenWidth inp ≠ s.lastW ∨ screenHeight inp ≠ s.lastH) :
    renderThisFrame policy s inp = true := by
  have hf : forceRenderFlag s inp = true := by
    unfold forceRenderFlag
    rcases h with h | h <;> simp [h]
  unfold renderThisFrame
  simp [hf]

/-- Witness for C6: a PAL/H40 frame arriving while the previous frame was
NTSC-sized (320 x 224) forces a render even with a skip-everything policy
and a zero consecutive-skip count. -/
theorem dimension_change_forces_render_witness :
    renderThisFrame false ⟨10, 0, 320, 224⟩ ⟨true, true⟩ = true :=
  dimension_change_forces_render false ⟨10, 0, 320, 224⟩ ⟨true, true⟩
    (by right; decide)

/-! ## The level-3 (HIGH) deterministic pattern (C7) -/

theorem set_frameskip_level_3 : set_frameskip_level 3 = (6, 9) := by decide

theorem patternRender_level3 (n : Nat) :
    patternRender 6 9 n = renderBit n := by
  unfold patternRender renderBit
  have h6 : n % 6 < 6 := Nat.mod_lt _ (by norm_num)
  simp only [ne_eq, OfNat.ofNat_ne_zero, not_false_eq_true, if_true]
  generalize n % 6 = r at h6 ⊢
  interval_cases r <;> decide

theorem hiPol_eq_renderBit (n : Nat) : hiPol n = renderBit n := by
  unfold hiPol
  rw [set_frameskip_level_3]
  exact patternRender_level3 n

theorem renderThisFrame_no_force (policy : Bool) (m c : Nat) (hc : c < 4) :
    renderThisFrame policy ⟨m, c, 320, 224⟩ ⟨false, true⟩ = policy := by
  unfold renderThisFrame forceRenderFlag screenWidth screenHeight
    FRAMESKIP_MAX_CONSECUTIVE
  simp only [if_true, if_pos]
  have : ¬ (c ≥ 4) := by omega
  simp [this]

theorem runFs_hi (n : Nat) : runFs hiPol constNtsc n = hiState n := by
  induction n with
  | zero => rfl
  | succ n ih =>
    have hstep : runFs hiPol constNtsc (n + 1) =
        (frameStep (hiPol n) (hiState n) ⟨false, true⟩).1 := by
      rw [runFs, ih]; rfl
    cases n with
    | zero => rw [hstep]; decide
    | succ m =>
      rw [hstep]
      have hmlt : m % 3 < 4 := by omega
      have hren : renderThisFrame (hiPol (m + 1)) (hiState (m + 1)) ⟨false, true⟩
          = renderBit (m + 1) := by
        unfold hiState
        simp only [Nat.succ_ne_zero, if_false, Nat.add_sub_cancel]
        rw [renderThisFrame_no_force _ _ _ hmlt, hiPol_eq_renderBit]
      show (frameStep (hiPol (m + 1)) (hiState (m + 1)) ⟨false, true⟩).1 =
        hiState (m + 2)
      unfold frameStep
      rw [hren]
      unfold hiState
      simp only [Nat.succ_ne_zero, if_false, Nat.add_sub_cancel]
      by_cases h3 : (m + 1) % 3 = 0
      · have hb : renderBit (m + 1) = true := by
          unfold renderBit
          have : (m + 1) % 6 = 0 ∨ (m + 1) % 6 = 3 := by omega
          simp [this]
        rw [hb]
        simp only [if_true, screenWidth, screenHeight]
        have : (m + 2 - 1) % 3 = 0 := by omega
        simp [this, h3]
      · have hb : renderBit (m + 1) = false := by
          unfold renderBit
          have h1 : ¬ ((m + 1) % 6 = 0 ∨ (m + 1) % 6 = 3) := by omega
          simp [h1]
        rw [hb]
        simp only [Bool.false_eq_true, if_false, screenWidth, screenHeight]
        have : m % 3 + 1 = (m + 2 - 1) % 3 := by omega
        simp [this]

theorem renderAt_hi (k : Nat) : renderAt hiPol constNtsc k = renderBit k := by
  cases k with
  | zero => decide
  | succ m =>
    rw [renderAt_eq, runFs_hi]
    show renderThisFrame (hiPol (m + 1)) (hiState (m + 1)) ⟨false, true⟩ =
      renderBit (m + 1)
    unfold hiState
    simp only [Nat.succ_ne_zero, if_false, Nat.add_sub_cancel]
    have hmlt : m % 3 < 4 := by omega
    rw [renderThisFrame_no_force _ _ _ hmlt, hiPol_eq_renderBit]

theorem countP_range_succ (p : Nat → Bool) (n : Nat) :
    (List.range (n + 1)).countP p =
      (List.range n).countP p + (if p n then 1 else 0) := by
  rw [List.range_succ, List.countP_append]
  simp [List.countP_cons]

theorem countP_six_blocks (a m : Nat) :
    (List.range (6 * m)).countP (fun j => renderBit (a + j)) = 2 * m := by
  induction m with
  | zero => simp
  | succ m ih =>
    have h6 : 6 * (m + 1) = 6 * m + 6 := by ring
    rw [h6, List.range_add, List.countP_append, ih]
    have hmap : (List.range 6).map (fun x => 6 * m + x) =
        [6 * m, 6 * m + 1, 6 * m + 2, 6 * m + 3, 6 * m + 4, 6 * m + 5] := by
      simp [List.range_succ]
    rw [hmap]
    simp only [List.countP_cons, List.countP_nil, renderBit, decide_eq_true_eq]
    split_ifs <;> omega

/-- C7: on the level-3 (HIGH) deterministic pattern with a constant NTSC
input stream (no dimension change after the first frame), frame k renders
exactly when k mod 6 is 0 or 3; every window of 600 consecutive frames
contains exactly 200 rendered frames; and every frame still emulates a full
frame of scanlines and signals Core 1 for audio submission. -/
theorem frameskip_high_exact_pattern (n0 k : Nat) :
    renderAt hiPol constNtsc k = decide (k % 6 = 0 ∨ k % 6 = 3) ∧
    (List.range 600).countP (fun j => renderAt hiPol constNtsc (n0 + j)) = 200 ∧
    (actionsAt hiPol constNtsc k).frameReadySignaled = true ∧
    (actionsAt hiPol constNtsc k).emulatedLines = linesPerFrame (constNtsc k) := by
  refine ⟨renderAt_hi k, ?_, rfl, rfl⟩
  have hcong : (List.range 600).countP (fun j => renderAt hiPol constNtsc (n0 + j))
      = (List.range 600).countP (fun j => renderBit (n0 + j)) := by
    apply List.countP_congr
    intro x _
    rw [renderAt_hi]
  rw [hcong]
  have h600 : (600 : Nat) = 6 * 100 := by norm_num
  rw [h600, countP_six_blocks]

/-- C8: after the scanline loop, both sound-chip producers are run forward
to the same fixed target AUDIO_TARGET_CLOCK = TARGET_SAMPLES_PER_FRAME *
AUDIO_FREQ_DIVISOR, for every frame state, every skip-policy output and
every video-timing input (in particular independent of the NTSC/PAL
lines-per-frame value for that frame). -/
theorem sound_flush_fixed_target (policy : Bool) (s : FsState)
    (inp : FrameInput) :
    (frameStep policy s inp).2.snFlushTarget =
        TARGET_SAMPLES_PER_FRAME * AUDIO_FREQ_DIVISOR ∧
    (frameStep policy s inp).2.ymFlushTarget =
        TARGET_SAMPLES_PER_FRAME * AUDIO_FREQ_DIVISOR ∧
    (frameStep policy s inp).2.snFlushTarget =
        (frameStep policy s inp).2.ymFlushTarget :=
  ⟨rfl, rfl, rfl⟩

/-! ## Silence-fade (low-pass filter) lemmas -/

theorem lpfStep_eq (s : Int) (h1 : -32768 ≤ s) (h2 : s ≤ 32767) :
    lpfStep s = (s * 250) / 256 := by
  unfold lpfStep toInt16
  omega

theorem lpfStep_nonneg_le (s : Int) (h0 : 0 ≤ s) (h2 : s ≤ 32767) :
    0 ≤ lpfStep s ∧ lpfStep s ≤ s := by
  rw [lpfStep_eq s (by omega) h2]
  omega

theorem lpfStep_neg_le (s : Int) (h1 : -32768 ≤ s) (h2 : s ≤ -1) :
    s ≤ lpfStep s ∧ lpfStep s ≤ -1 := by
  rw [lpfStep_eq s h1 (by omega)]
  omega

theorem lpfIter_succ (k : Nat) (s : Int) :
    lpfIter (k + 1) s = lpfStep (lpfIter k s) := rfl

theorem lpfIter_nonneg (s : Int) (h0 : 0 ≤ s) (h2 : s ≤ 32767) (k : Nat) :
    0 ≤ lpfIter k s ∧ lpfIter k s ≤ s := by
  induction k with
  | zero => exact ⟨h0, le_refl s⟩
  | succ k ih =>
    have hs := lpfStep_nonneg_le (lpfIter k s) ih.1 (le_trans ih.2 h2)
    rw [lpfIter_succ]
    exact ⟨hs.1, le_trans hs.2 ih.2⟩

theorem lpfIter_neg (s : Int) (h1 : -32768 ≤ s) (h2 : s ≤ -1) (k : Nat) :
    s ≤ lpfIter k s ∧ lpfIter k s ≤ -1 := by
  induction k with
  | zero => exact ⟨le_refl s, h2⟩
  | succ k ih =>
    have hs := lpfStep_neg_le (lpfIter k s) (le_trans h1 ih.1) ih.2
    rw [lpfIter_succ]
    exact ⟨le_trans ih.1 hs.1, hs.2⟩

theorem lpfIter_add (a b : Nat) (s : Int) :
    lpfIter (a + b) s = lpfIter a (lpfIter b s) := by
  induction a with
  | zero => simp [lpfIter]
  | succ a ih =>
    have hn : a + 1 + b = (a + b) + 1 := by omega
    rw [hn, lpfIter_succ, lpfIter_succ, ih]

theorem lpfIter_mul_bound (s : Int) (h0 : 0 ≤ s) (h2 : s ≤ 32767) (k : Nat) :
    256 ^ k * lpfIter k s ≤ 250 ^ k * s := by
  induction k with
  | zero => simp [lpfIter]
  | succ k ih =>
    have hk := lpfIter_nonneg s h0 h2 k
    have hstep : lpfIter (k + 1) s = (lpfIter k s * 250) / 256 := by
      rw [lpfIter_succ]
      exact lpfStep_eq _ (by omega) (by omega)
    have h256 : 256 * ((lpfIter k s * 250) / 256) ≤ lpfIter k s * 250 := by
      omega
    calc 256 ^ (k + 1) * lpfIter (k + 1) s
        = 256 ^ k * (256 * lpfIter (k + 1) s) := by ring
      _ ≤ 256 ^ k * (lpfIter k s * 250) := by
          apply mul_le_mul_of_nonneg_left _ (by positivity)
          rw [hstep]
          exact h256
      _ = 250 * (256 ^ k * lpfIter k s) := by ring
      _ ≤ 250 * (250 ^ k * s) := by
          apply mul_le_mul_of_nonneg_left ih (by norm_num)
      _ = 250 ^ (k + 1) * s := by ring

theorem lpfIter_30_half (s : Int) (h0 : 0 ≤ s) (h2 : s ≤ 32767) :
    2 * lpfIter 30 s ≤ s := by
  have hb := lpfIter_mul_bound s h0 h2 30
  have hpos : (0 : Int) < 250 ^ 30 := by positivity
  have hit : 0 ≤ lpfIter 30 s := (lpfIter_nonneg s h0 h2 30).1
  have h2p : 2 * (250 : Int) ^ 30 ≤ 256 ^ 30 := by decide
  have hchain : 250 ^ 30 * (2 * lpfIter 30 s) ≤ 250 ^ 30 * s := by
    calc 250 ^ 30 * (2 * lpfIter 30 s)
        = (2 * 250 ^ 30) * lpfIter 30 s := by ring
      _ ≤ 256 ^ 30 * lpfIter 30 s := mul_le_mul_of_nonneg_right h2p hit
      _ ≤ 250 ^ 30 * s := hb
  exact le_of_mul_le_mul_left hchain hpos

theorem lpfIter_halving (s : Int) (h0 : 0 ≤ s) (h2 : s ≤ 32767) (j : Nat) :
    2 ^ j * lpfIter (30 * j) s ≤ s := by
  induction j with
  | zero => simpa using (lpfIter_nonneg s h0 h2 0).2
  | succ j ih =>
    have ht := lpfIter_nonneg s h0 h2 (30 * j)
    have ht2 : lpfIter (30 * j) s ≤ 32767 := le_trans ht.2 h2
    have hh : 2 * lpfIter 30 (lpfIter (30 * j) s) ≤ lpfIter (30 * j) s :=
      lpfIter_30_half _ ht.1 ht2
    have hnn : 0 ≤ lpfIter 30 (lpfIter (30 * j) s) :=
      (lpfIter_nonneg _ ht.1 ht2 30).1
    have hcomp : lpfIter (30 * (j + 1)) s = lpfIter 30 (lpfIter (30 * j) s) := by
      rw [show 30 * (j + 1) = 30 + 30 * j by ring, lpfIter_add]
    rw [hcomp]
    calc 2 ^ (j + 1) * lpfIter 30 (lpfIter (30 * j) s)
        = 2 ^ j * (2 * lpfIter 30 (lpfIter (30 * j) s)) := by ring
      _ ≤ 2 ^ j * lpfIter (30 * j) s :=
          mul_le_mul_of_nonneg_left hh (by positivity)
      _ ≤ s := ih

theorem lpfIter_480_zero (s : Int) (h0 : 0 ≤ s) (h2 : s ≤ 32767) :
    lpfIter 480 s = 0 := by
  have hh := lpfIter_halving s h0 h2 16
  have hnn := (lpfIter_nonneg s h0 h2 480).1
  rw [show 30 * 16 = 480 by norm_num] at hh
  rw [show (2 : Int) ^ 16 = 65536 by norm_num] at hh
  omega

theorem lpfIter_of_zero (k : Nat) : lpfIter k 0 = 0 := by
  induction k with
  | zero => rfl
  | succ k ih =>
    rw [lpfIter_succ, ih]
    decide

theorem lpfIter_888_zero (s : Int) (h0 : 0 ≤ s) (h2 : s ≤ 32767) :
    lpfIter TARGET_SAMPLES_NTSC s = 0 := by
  have h888 : TARGET_SAMPLES_NTSC = 408 + 480 := by decide
  rw [h888, lpfIter_add, lpfIter_480_zero s h0 h2, lpfIter_of_zero]

theorem lpfIter_neg_one (k : Nat) : lpfIter k (-1) = -1 := by
  induction k with
  | zero => rfl
  | succ k ih =>
    rw [lpfIter_succ, ih]
    decide

/-! ## Audio submission: fixed cadence (C2) -/

theorem audio_submit_initialized (st : AudioState) (inp : SubmitInput) :
    (audio_submit st inp).1.initialized = st.initialized := by
  unfold audio_submit
  split
  · rfl
  · split <;> rfl

theorem audioRun_initialized (st0 : AudioState) (inps : Nat → SubmitInput)
    (n : Nat) : (audioRun st0 inps n).initialized = st0.initialized := by
  induction n with
  | zero => rfl
  | succ n ih =>
    show (audio_submit (audioRun st0 inps n) (inps n)).1.initialized = _
    rw [audio_submit_initialized, ih]

theorem availableOf_toNat_le (inp : SubmitInput) :
    (availableOf inp).toNat ≤ TARGET_SAMPLES_NTSC := by
  have hmin : availableOf inp ≤ (TARGET_SAMPLES_NTSC : Int) := by
    unfold availableOf
    exact min_le_right _ _
  unfold TARGET_SAMPLES_NTSC at hmin ⊢
  omega

theorem pureMix_length (vol : Int) (inp : SubmitInput) :
    (pureMix vol inp).length = TARGET_SAMPLES_NTSC := by
  have hn := availableOf_toNat_le inp
  unfold pureMix mixMono
  simp only [List.length_append, List.length_map, List.length_range,
    List.length_replicate]
  omega

theorem audio_submit_commit (st : AudioState) (inp : SubmitInput)
    (h : st.initialized = true) :
    ∃ c : Commit, (audio_submit st inp).2 = some c ∧
      c.count = TARGET_SAMPLES_NTSC ∧
      i2sClampCount c.count = TARGET_SAMPLES_NTSC ∧
      c.samples.length = TARGET_SAMPLES_NTSC := by
  have hi2s : i2sClampCount TARGET_SAMPLES_NTSC = TARGET_SAMPLES_NTSC := by
    decide
  unfold audio_submit
  rw [h]
  simp only [Bool.true_eq_false, if_false]
  split
  · refine ⟨_, rfl, rfl, hi2s, ?_⟩
    simp [fadeSamples]
  · refine ⟨_, rfl, rfl, hi2s, ?_⟩
    simp only [List.length_map]
    split
    · simp
    · exact pureMix_length _ _

/-- C2: on every frame of the steady-state loop, audio_submit makes exactly
one commit through i2s_dma_write_count, always of exactly the fixed target
length TARGET_SAMPLES_NTSC = 888 (which the i2s count clamp passes through
unchanged), whatever the inputs of that frame — mixed audio, disabled
audio, zero counts or NULL buffer pointers alike. -/
theorem fixed_audio_cadence (st0 : AudioState) (inps : Nat → SubmitInput)
    (n : Nat) (h : st0.initialized = true) :
    ∃ c : Commit, commitAt st0 inps n = some c ∧
      c.count = TARGET_SAMPLES_NTSC ∧
      i2sClampCount c.count = TARGET_SAMPLES_NTSC ∧
      c.samples.length = TARGET_SAMPLES_NTSC := by
  have hinit : (audioRun st0 inps n).initialized = true := by
    rw [audioRun_initialized]
    exact h
  exact audio_submit_commit _ _ hinit

/-- Witness for C2: frame 1 of a run whose inputs hit the NULL-pointer /
zero-count path still commits exactly 888 samples. -/
theorem fixed_audio_cadence_witness :
    ∃ c : Commit,
      commitAt ⟨true, true, 100, 0, 0, 0⟩ (fun _ => ⟨none, none, 0, 0⟩) 1 =
        some c ∧
      c.count = TARGET_SAMPLES_NTSC ∧
      i2sClampCount c.count = TARGET_SAMPLES_NTSC ∧
      c.samples.length = TARGET_SAMPLES_NTSC :=
  fixed_audio_cadence ⟨true, true, 100, 0, 0, 0⟩ (fun _ => ⟨none, none, 0, 0⟩)
    1 rfl

/-! ## Silence-fade behaviour (C3) -/

/-- C3 (amended): on the silence-fade path, audio_submit emits the
one-pole decay sequence lpfIter (k+1) s of the filter state s and stores
back lpfIter 888 s.  The decay is monotone in absolute value with no sign
change (no oscillation); a nonnegative initial state reaches exactly 0
within the single frame; but a negative initial state stays at or below -1
on every sample of every subsequent frame, so it never converges to zero. -/
theorem silence_fade_amended (st : AudioState) (inp : SubmitInput) (k : Nat)
    (hinit : st.initialized = true)
    (hsil : silencePathB st inp = true)
    (h1 : -32768 ≤ st.lpfState) (h2 : st.lpfState ≤ 32767) :
    (audio_submit st inp).2 =
      some ⟨(fadeSamples st.lpfState).map (fun v => (v, v)),
        TARGET_SAMPLES_NTSC⟩ ∧
    (audio_submit st inp).1.lpfState = lpfIter TARGET_SAMPLES_NTSC st.lpfState ∧
    (0 ≤ st.lpfState →
      0 ≤ lpfIter (k + 1) st.lpfState ∧
      lpfIter (k + 1) st.lpfState ≤ lpfIter k st.lpfState ∧
      lpfIter TARGET_SAMPLES_NTSC st.lpfState = 0) ∧
    (st.lpfState < 0 →
      lpfIter k st.lpfState ≤ lpfIter (k + 1) st.lpfState ∧
      lpfIter (k + 1) st.lpfState ≤ -1) := by
  refine ⟨?_, ?_, ?_, ?_⟩
  · unfold audio_submit
    rw [hinit, hsil]
    simp
  · unfold audio_submit
    rw [hinit, hsil]
    simp
  · intro h0
    have hr := lpfIter_nonneg st.lpfState h0 h2 k
    have hr2 : lpfIter k st.lpfState ≤ 32767 := le_trans hr.2 h2
    have hs := lpfStep_nonneg_le _ hr.1 hr2
    rw [lpfIter_succ]
    exact ⟨hs.1, hs.2, lpfIter_888_zero _ h0 h2⟩
  · intro hneg
    have hr := lpfIter_neg st.lpfState h1 (by omega) k
    have hs := lpfStep_neg_le _ (le_trans h1 hr.1) hr.2
    rw [lpfIter_succ]
    exact ⟨hs.1, hs.2⟩

/-- Witness for C3's amended theorem: a disabled-audio call with the filter
state at 32767. -/
theorem silence_fade_amended_witness :
    (audio_submit ⟨true, false, 100, 0, 32767, 0⟩ ⟨none, none, 0, 0⟩).2 =
      some ⟨(fadeSamples 32767).map (fun v => (v, v)), TARGET_SAMPLES_NTSC⟩ ∧
    (audio_submit ⟨true, false, 100, 0, 32767, 0⟩ ⟨none, none, 0, 0⟩).1.lpfState =
      lpfIter TARGET_SAMPLES_NTSC 32767 ∧
    ((0 : Int) ≤ 32767 →
      0 ≤ lpfIter (3 + 1) 32767 ∧
      lpfIter (3 + 1) 32767 ≤ lpfIter 3 32767 ∧
      lpfIter TARGET_SAMPLES_NTSC 32767 = 0) ∧
    ((32767 : Int) < 0 →
      lpfIter 3 32767 ≤ lpfIter (3 + 1) 32767 ∧
      lpfIter (3 + 1) 32767 ≤ -1) :=
  silence_fade_amended ⟨true, false, 100, 0, 32767, 0⟩ ⟨none, none, 0, 0⟩ 3
    rfl rfl (by decide) (by decide)

/-- Counterexample for C3 as stated: from the in-range initial filter state
-1, the fade is stuck — every one of the 888 emitted samples is -1, the
stored filter state is again -1 (indeed -1 is a fixed point of the decay
step), and -1 is not zero.  So the sequence does not converge to zero for
every initial value in the signed 16-bit range. -/
theorem silence_fade_counterexample :
    lpfStep (-1) = -1 ∧
    fadeSamples (-1) = List.replicate TARGET_SAMPLES_NTSC (-1) ∧
    (audio_submit ⟨true, false, 100, 0, -1, 0⟩ ⟨none, none, 0, 0⟩).1.lpfState =
      -1 ∧
    ((-1 : Int) ≠ 0) := by
  refine ⟨by decide, ?_, ?_, by decide⟩
  · unfold fadeSamples
    rw [List.eq_replicate_iff]
    refine ⟨by simp, ?_⟩
    intro b hb
    simp only [List.mem_map, List.mem_range] at hb
    obtain ⟨k, -, hk⟩ := hb
    rw [← hk, lpfIter_neg_one]
  · show ({ (⟨true, false, 100, 0, -1, 0⟩ : AudioState) with
        lpfState := lpfIter TARGET_SAMPLES_NTSC (-1) } : AudioState).lpfState = -1
    exact lpfIter_neg_one TARGET_SAMPLES_NTSC

/-! ## Crossfade (C4) -/

/-- C4 (amended): audio_submit applies no crossfade.  Its commit is fully
independent of last_frame_sample (the value is saved each frame but never
read back), and on the mixing path past the startup mute the committed
buffer is exactly the padded raw mix, whose first sample is the new
frame's level — a boundary discontinuity therefore remains a single-sample
jump. -/
theorem no_crossfade (st : AudioState) (inp : SubmitInput) (v : Int)
    (hinit : st.initialized = true) (hmix : silencePathB st inp = false)
    (hpast : STARTUP_FADE_FRAMES ≤ st.startupCounter) :
    (audio_submit { st with lastFrameSample := v } inp).2 =
      (audio_submit st inp).2 ∧
    (audio_submit st inp).2 =
      some ⟨(pureMix st.masterVolume inp).map (fun x => (x, x)),
        TARGET_SAMPLES_NTSC⟩ := by
  constructor
  · have hsil : silencePathB { st with lastFrameSample := v } inp =
        silencePathB st inp := rfl
    simp only [audio_submit]
    rw [hsil, hinit, hmix]
    simp
  · unfold audio_submit
    rw [hinit, hmix]
    simp only [Bool.true_eq_false, if_false, Bool.false_eq_true]
    have hnm : ¬ st.startupCounter < STARTUP_FADE_FRAMES := by omega
    simp [hnm]

/-- Witness for C4's amended theorem, at the concrete discontinuity state
stCross1 (whose last_frame_sample is 20000) fed the -20000 frame. -/
theorem no_crossfade_witness :
    (audio_submit { stCross1 with lastFrameSample := 99 } inpNeg).2 =
      (audio_submit stCross1 inpNeg).2 ∧
    (audio_submit stCross1 inpNeg).2 =
      some ⟨(pureMix stCross1.masterVolume inpNeg).map (fun x => (x, x)),
        TARGET_SAMPLES_NTSC⟩ :=
  no_crossfade stCross1 inpNeg 99 rfl rfl (by decide)

/-- Counterexample for C4 as stated: frame N ends at +20000 (recorded in
last_frame_sample), frame N+1's raw level is -20000, yet the first 32
samples of frame N+1's submitted buffer are all exactly -20000 — for no
K between 16 and 32 do they form the spec's linear ramp between 20000 and
-20000; the boundary is a single-sample jump. -/
theorem crossfade_counterexample :
    stCross1.lastFrameSample = 20000 ∧
    crossCommit =
      some ⟨(pureMix 128 inpNeg).map (fun x => (x, x)), TARGET_SAMPLES_NTSC⟩ ∧
    (pureMix 128 inpNeg).take 32 = List.replicate 32 (-20000) ∧
    (∀ K, K ≤ 32 → 16 ≤ K →
      ¬ specLinearRamp 20000 (-20000) K (pureMix 128 inpNeg)) := by
  refine ⟨by rfl, by rfl, by decide, by decide⟩

/-! ## Defensive count clamping and in-bounds mixing (C5) -/

/-- C5: each reported per-chip count is clamped — to zero when negative or
above AUDIO_BUFFER_SAMPLES, kept otherwise; the sample budget is
available = max of the clamped counts further clamped to 888; the mixing
loop produces exactly available samples; and the mix reads a chip buffer
only strictly below that chip's clamped count: replacing every entry at or
beyond the clamped counts changes nothing. -/
theorem sample_count_clamping (inp : SubmitInput) (vol : Int)
    (ymb' snb' : Nat → Int)
    (hym : ∀ i : Nat, (i : Int) < clampCount inp.ymSamples →
      (inp.ymBuf.getD (fun _ => 0)) i = ymb' i)
    (hsn : ∀ i : Nat, (i : Int) < clampCount inp.snSamples →
      (inp.snBuf.getD (fun _ => 0)) i = snb' i) :
    (0 ≤ clampCount inp.ymSamples ∧
      clampCount inp.ymSamples ≤ (AUDIO_BUFFER_SAMPLES : Int)) ∧
    ((inp.ymSamples < 0 ∨ inp.ymSamples > (AUDIO_BUFFER_SAMPLES : Int)) →
      clampCount inp.ymSamples = 0) ∧
    (0 ≤ inp.ymSamples → inp.ymSamples ≤ (AUDIO_BUFFER_SAMPLES : Int) →
      clampCount inp.ymSamples = inp.ymSamples) ∧
    availableOf inp =
      min (max (clampCount inp.ymSamples) (clampCount inp.snSamples))
        (TARGET_SAMPLES_NTSC : Int) ∧
    (mixMono vol inp).length = (availableOf inp).toNat ∧
    mixMono vol inp =
      (List.range (availableOf inp).toNat).map
        (mixSample vol (clampCount inp.ymSamples) (clampCount inp.snSamples)
          ymb' snb') := by
  refine ⟨?_, ?_, ?_, rfl, ?_, ?_⟩
  · unfold clampCount
    split <;> omega
  · intro h
    unfold clampCount
    split
    · rfl
    · omega
  · intro h1 h2
    unfold clampCount
    split
    · omega
    · rfl
  · unfold mixMono
    simp
  · unfold mixMono
    apply List.map_congr_left
    intro i _
    unfold mixSample
    have hy : (if (i : Int) < clampCount inp.ymSamples then
        (inp.ymBuf.getD (fun _ => 0)) i else 0) =
        (if (i : Int) < clampCount inp.ymSamples then ymb' i else 0) := by
      split
      · exact hym i (by assumption)
      · rfl
    have hs : (if (i : Int) < clampCount inp.snSamples then
        (inp.snBuf.getD (fun _ => 0)) i else 0) =
        (if (i : Int) < clampCount inp.snSamples then snb' i else 0) := by
      split
      · exact hsn i (by assumption)
      · rfl
    rw [hy, hs]

/-- Witness for C5: a negative YM count and an oversized SN count are both
clamped to zero, and entries of the YM buffer beyond the clamped count are
never read. -/
theorem sample_count_clamping_witness :
    (0 ≤ clampCount (⟨some (fun _ => 7), some (fun _ => 9), 3, 5000⟩ :
        SubmitInput).ymSamples ∧
      clampCount (⟨some (fun _ => 7), some (fun _ => 9), 3, 5000⟩ :
        SubmitInput).ymSamples ≤ (AUDIO_BUFFER_SAMPLES : Int)) ∧
    (((⟨some (fun _ => 7), some (fun _ => 9), 3, 5000⟩ :
        SubmitInput).ymSamples < 0 ∨
      (⟨some (fun _ => 7), some (fun _ => 9), 3, 5000⟩ :
        SubmitInput).ymSamples > (AUDIO_BUFFER_SAMPLES : Int)) →
      clampCount (⟨some (fun _ => 7), some (fun _ => 9), 3, 5000⟩ :
        SubmitInput).ymSamples = 0) ∧
    (0 ≤ (⟨some (fun _ => 7), some (fun _ => 9), 3, 5000⟩ :
        SubmitInput).ymSamples →
      (⟨some (fun _ => 7), some (fun _ => 9), 3, 5000⟩ :
        SubmitInput).ymSamples ≤ (AUDIO_BUFFER_SAMPLES : Int) →
      clampCount (⟨some (fun _ => 7), some (fun _ => 9), 3, 5000⟩ :
        SubmitInput).ymSamples =
        (⟨some (fun _ => 7), some (fun _ => 9), 3, 5000⟩ :
          SubmitInput).ymSamples) ∧
    availableOf ⟨some (fun _ => 7), some (fun _ => 9), 3, 5000⟩ =
      min (max (clampCount (3 : Int)) (clampCount (5000 : Int)))
        (TARGET_SAMPLES_NTSC : Int) ∧
    (mixMono 100 ⟨some (fun _ => 7), some (fun _ => 9), 3, 5000⟩).length =
      (availableOf ⟨some (fun _ => 7), some (fun _ => 9), 3, 5000⟩).toNat ∧
    mixMono 100 ⟨some (fun _ => 7), some (fun _ => 9), 3, 5000⟩ =
      (List.range
          (availableOf ⟨some (fun _ => 7), some (fun _ => 9), 3, 5000⟩).toNat).map
        (mixSample 100 (clampCount (3 : Int)) (clampCount (5000 : Int))
          (fun i => if i < 3 then 7 else 0) (fun _ => 0)) :=
  sample_count_clamping ⟨some (fun _ => 7), some (fun _ => 9), 3, 5000⟩ 100
    (fun i => if i < 3 then 7 else 0) (fun _ => 0)
    (fun i hi => by
      have hc : clampCount ((⟨some (fun _ => 7), some (fun _ => 9), 3, 5000⟩ :
          SubmitInput)).ymSamples = 3 := by decide
      rw [hc] at hi
      have h3 : i < 3 := by exact_mod_cast hi
      simp [h3])
    (fun i hi => by
      have hc : clampCount ((⟨some (fun _ => 7), some (fun _ => 9), 3, 5000⟩ :
          SubmitInput)).snSamples = 0 := by decide
      rw [hc] at hi
      exact absurd hi (by omega))

/-! ## Startup mute (C10) -/

theorem audio_submit_counter (st : AudioState) (inp : SubmitInput)
    (hinit : st.initialized = true) :
    (audio_submit st inp).1.startupCounter =
      if silencePathB st inp then st.startupCounter
      else if st.startupCounter < STARTUP_FADE_FRAMES then
        st.startupCounter + 1
      else st.startupCounter := by
  unfold audio_submit
  rw [hinit]
  simp only [Bool.true_eq_false, if_false]
  by_cases hs : silencePathB st inp
  · simp [hs]
  · simp [hs]

theorem audioRun_counter (st0 : AudioState) (inps : Nat → SubmitInput)
    (hinit : st0.initialized = true) (hc0 : st0.startupCounter = 0) (n : Nat) :
    (audioRun st0 inps n).startupCounter =
      min (mixCount st0 inps n) STARTUP_FADE_FRAMES := by
  induction n with
  | zero => simp [audioRun, mixCount, hc0]
  | succ n ih =>
    have hinitn : (audioRun st0 inps n).initialized = true := by
      rw [audioRun_initialized]
      exact hinit
    show (audio_submit (audioRun st0 inps n) (inps n)).1.startupCounter = _
    rw [audio_submit_counter _ _ hinitn, ih]
    show _ = min (mixCount st0 inps n +
      (if silencePathB (audioRun st0 inps n) (inps n) then 0 else 1))
      STARTUP_FADE_FRAMES
    by_cases hs : silencePathB (audioRun st0 inps n) (inps n)
    · simp [hs]
    · simp only [hs, Bool.false_eq_true, if_false]
      unfold STARTUP_FADE_FRAMES
      split_ifs <;> omega

theorem audio_submit_mute (st : AudioState) (inp : SubmitInput)
    (hinit : st.initialized = true) (hmix : silencePathB st inp = false) :
    (st.startupCounter < STARTUP_FADE_FRAMES →
      (audio_submit st inp).2 =
        some ⟨List.replicate TARGET_SAMPLES_NTSC ((0 : Int), (0 : Int)),
          TARGET_SAMPLES_NTSC⟩) ∧
    (STARTUP_FADE_FRAMES ≤ st.startupCounter →
      (audio_submit st inp).2 =
        some ⟨(pureMix st.masterVolume inp).map (fun v => (v, v)),
          TARGET_SAMPLES_NTSC⟩) := by
  unfold audio_submit
  rw [hinit, hmix]
  simp only [Bool.true_eq_false, if_false, Bool.false_eq_true]
  constructor
  · intro hlt
    simp [hlt, List.map_replicate]
  · intro hge
    have hnm : ¬ st.startupCounter < STARTUP_FADE_FRAMES := by omega
    simp [hnm]

/-- C10: along any run starting with a zero startup counter, every
mixing-path call among the first 120 mixing-path calls commits pure
silence (all-zero samples), and every mixing-path call from the 121st
mixing-path call onward commits the mixed audio unmodified. -/
theorem startup_mute_first_120 (st0 : AudioState) (inps : Nat → SubmitInput)
    (n : Nat) (hinit : st0.initialized = true) (hc0 : st0.startupCounter = 0)
    (hmix : silencePathB (audioRun st0 inps n) (inps n) = false) :
    (mixCount st0 inps n < STARTUP_FADE_FRAMES →
      commitAt st0 inps n =
        some ⟨List.replicate TARGET_SAMPLES_NTSC ((0 : Int), (0 : Int)),
          TARGET_SAMPLES_NTSC⟩) ∧
    (STARTUP_FADE_FRAMES ≤ mixCount st0 inps n →
      commitAt st0 inps n =
        some ⟨(pureMix (audioRun st0 inps n).masterVolume (inps n)).map
            (fun v => (v, v)),
          TARGET_SAMPLES_NTSC⟩) := by
  have hinitn : (audioRun st0 inps n).initialized = true := by
    rw [audioRun_initialized]
    exact hinit
  have hcnt := audioRun_counter st0 inps hinit hc0 n
  have hm := audio_submit_mute (audioRun st0 inps n) (inps n) hinitn hmix
  constructor
  · intro hlt
    apply hm.1
    rw [hcnt]
    unfold STARTUP_FADE_FRAMES at hlt ⊢
    omega
  · intro hge
    apply hm.2
    rw [hcnt]
    unfold STARTUP_FADE_FRAMES at hge ⊢
    omega

/-- Witness for C10: the very first mixing-path call of a fresh run
commits all-zero samples. -/
theorem startup_mute_first_120_witness :
    (mixCount ⟨true, true, 128, 0, 0, 0⟩ (fun _ => inpPos) 0 <
        STARTUP_FADE_FRAMES →
      commitAt ⟨true, true, 128, 0, 0, 0⟩ (fun _ => inpPos) 0 =
        some ⟨List.replicate TARGET_SAMPLES_NTSC ((0 : Int), (0 : Int)),
          TARGET_SAMPLES_NTSC⟩) ∧
    (STARTUP_FADE_FRAMES ≤ mixCount ⟨true, true, 128, 0, 0, 0⟩
        (fun _ => inpPos) 0 →
      commitAt ⟨true, true, 128, 0, 0, 0⟩ (fun _ => inpPos) 0 =
        some ⟨(pureMix (audioRun ⟨true, true, 128, 0, 0, 0⟩
              (fun _ => inpPos) 0).masterVolume
            ((fun _ => inpPos) 0)).map (fun v => (v, v)),
          TARGET_SAMPLES_NTSC⟩) :=
  startup_mute_first_120 ⟨true, true, 128, 0, 0, 0⟩ (fun _ => inpPos) 0
    rfl rfl (by decide)

/-! ## DMA underrun handling (C9) -/

/-- C9 (amended): in the realtime driver's handler an underrun (completion
with an empty ring) increments the underrun counter, fills the re-armed
slot with silence and re-arms the channel with the full transfer count, so
playback continues; the chained double-buffer driver's handler, by
contrast, never touches buffer contents and counts nothing — it re-arms
the completed channel over whatever the buffer last held. -/
theorem underrun_silence_and_count (strt : RtRingState)
    (stch : ChainedDmaState) (hund : strt.ringCount = 0) :
    (audio_rt_dma_irq_channel strt).underruns = strt.underruns + 1 ∧
    (audio_rt_dma_irq_channel strt).ringReadIdx = strt.ringReadIdx ∧
    (audio_rt_dma_irq_channel strt).bufs strt.ringReadIdx = (fun _ => 0) ∧
    (audio_rt_dma_irq_channel strt).armedIdx = strt.ringReadIdx ∧
    (audio_rt_dma_irq_channel strt).armedCount = RING_BUFFER_SAMPLES ∧
    (audio_rt_dma_irq_channel strt).irqCount = strt.irqCount + 1 ∧
    (audio_dma_irq_channelA stch).bufs = stch.bufs := by
  obtain ⟨c, ri, u, q, b, ai, ac⟩ := strt
  have hc : c = 0 := hund
  subst hc
  unfold audio_rt_dma_irq_channel audio_dma_irq_channelA
  simp [Function.update_same]

/-- Witness for C9's amended theorem: an underrun at ring slot 2 with
stale contents 5 everywhere. -/
theorem underrun_silence_and_count_witness :
    (audio_rt_dma_irq_channel ⟨0, 2, 10, 40, fun _ _ => 5, 1, 888⟩).underruns =
      10 + 1 ∧
    (audio_rt_dma_irq_channel ⟨0, 2, 10, 40, fun _ _ => 5, 1, 888⟩).ringReadIdx =
      2 ∧
    (audio_rt_dma_irq_channel ⟨0, 2, 10, 40, fun _ _ => 5, 1, 888⟩).bufs 2 =
      (fun _ => 0) ∧
    (audio_rt_dma_irq_channel ⟨0, 2, 10, 40, fun _ _ => 5, 1, 888⟩).armedIdx =
      2 ∧
    (audio_rt_dma_irq_channel ⟨0, 2, 10, 40, fun _ _ => 5, 1, 888⟩).armedCount =
      RING_BUFFER_SAMPLES ∧
    (audio_rt_dma_irq_channel ⟨0, 2, 10, 40, fun _ _ => 5, 1, 888⟩).irqCount =
      40 + 1 ∧
    (audio_dma_irq_channelA staleChained).bufs = staleChained.bufs :=
  underrun_silence_and_count ⟨0, 2, 10, 40, fun _ _ => 5, 1, 888⟩
    staleChained rfl

/-- Counterexample for C9 as stated: in the chained double-buffer driver
(drivers/audio.c), a channel-A completion firing while no refilled buffer
is available leaves buffer 0's stale nonzero contents in place, re-arms
channel A over that same buffer, and increments no counter — silence is
not presented and no underrun counter exists in that handler. -/
theorem underrun_counterexample :
    (audio_dma_irq_channelA staleChained).bufs 0 0 = 7 ∧
    ((7 : Int) ≠ 0) ∧
    (audio_dma_irq_channelA staleChained).armedIdxA = 0 ∧
    (audio_dma_irq_channelA staleChained).armedCountA = dma_transfer_count ∧
    (audio_dma_irq_channelA staleChained).freeMask = 3 :=
  ⟨rfl, by decide, rfl, rfl, rfl⟩

end Murmgenesis
